import Mathlib

/-!
Verification of the perf-client Concurrency Manager and the server status
manager of the tensorrt-inference-server repository.

The development shallowly embeds the relevant C++ functions:
* `ConcurrencyManager::Summarize` (src/clients/c++/perf_client.cc, the
  client-side window statistics and the server-side counter deltas),
* the stability loop of `ConcurrencyManager::Step`,
* the concurrency-adjustment part of `ConcurrencyManager::Step` and the
  fill loop of `ConcurrencyManager::AsyncInfer`,
* `Report` and the CSV emission of `main`,
* `ServerStatusManager::UpdateSuccessInferStats` and
  `ServerStatusManager::InitForModel` (src/core/server_status.cc).

Machine integers are modelled as `Nat`/`Int`; an explicit `% 2 ^ 64` is kept
exactly where 64-bit wraparound is reachable and matters for a claim (the
square-of-latency products and the server-counter subtraction in the summary
composer).  Floating-point expressions of the source (`float` and `double`
averages) are modelled by exact rational arithmetic with C-style truncation;
each such place is noted at its definition.
-/

namespace PerfClient

/-- `NANOS_PER_SECOND` from src/core/constants.h. -/
def NANOS_PER_SECOND : Nat := 1000000000

/-- One `struct timespec` from the monotonic clock: non-negative seconds and
nanoseconds fields. -/
structure Timespec where
  tv_sec : Nat
  tv_nsec : Nat
deriving DecidableEq

/-- `tv_sec * ni::NANOS_PER_SECOND + tv_nsec`, the conversion applied to every
timestamp inside `ConcurrencyManager::Summarize`. -/
def Timespec.toNs (t : Timespec) : Nat :=
  t.tv_sec * NANOS_PER_SECOND + t.tv_nsec

/-- One entry of the shared timestamp vector: (start time, end time). -/
abbrev Timestamp := Timespec × Timespec

/-- `first_request_start_ns` of `Summarize`: fold with a 0 sentinel,
`if ((first_request_start_ns > request_start_time) ||
(first_request_start_ns == 0)) first_request_start_ns = request_start_time`.
The source updates `first_request_start_ns` and `last_request_end_ns` in one
loop over the vector; the two updates touch disjoint state, so they are
embedded as two folds over the same list. -/
def firstRequestStartNs (ts : List Timestamp) : Nat :=
  ts.foldl (fun acc t => if t.1.toNs < acc ∨ acc = 0 then t.1.toNs else acc) 0

/-- `last_request_end_ns` of `Summarize`: fold with a 0 sentinel. -/
def lastRequestEndNs (ts : List Timestamp) : Nat :=
  ts.foldl (fun acc t => if t.2.toNs > acc ∨ acc = 0 then t.2.toNs else acc) 0

/-- `measurement_window_ns = measurement_window_ms_ * 1000 * 1000`. -/
def measurementWindowNs (ms : Nat) : Nat := ms * 1000 * 1000

/-- The window offset of `Summarize`:
`offset = first + window; offset = (offset > last) ? 0 : (last - offset) / 2`. -/
def windowOffset (first last w : Nat) : Nat :=
  if first + w > last then 0 else (last - (first + w)) / 2

/-- `client_start_ns = first_request_start_ns + offset`. -/
def clientStartNs (ts : List Timestamp) (w : Nat) : Nat :=
  firstRequestStartNs ts +
    windowOffset (firstRequestStartNs ts) (lastRequestEndNs ts) w

/-- `client_end_ns = client_start_ns + measurement_window_ns`. -/
def clientEndNs (ts : List Timestamp) (w : Nat) : Nat :=
  clientStartNs ts w + w

/-- The filter of the measurement loop of `Summarize`: a timestamp is used iff
`request_start_ns <= request_end_ns` and
`request_end_ns >= client_start_ns && request_end_ns <= client_end_ns`. -/
def isValidTimestamp (cs ce : Nat) (t : Timestamp) : Bool :=
  decide (t.1.toNs ≤ t.2.toNs) && decide (cs ≤ t.2.toNs) &&
    decide (t.2.toNs ≤ ce)

/-- The latencies `request_end_ns - request_start_ns` of the timestamps that
pass `isValidTimestamp`, in vector order. -/
def validLatencies (cs ce : Nat) (ts : List Timestamp) : List Nat :=
  (ts.filter (isValidTimestamp cs ce)).map (fun t => t.2.toNs - t.1.toNs)

/-- `min_latency_ns` of `Summarize`: fold with the 0 sentinel
`if ((request_latency < min_latency_ns) || (min_latency_ns == 0))`. -/
def minLatencyNs (lats : List Nat) : Nat :=
  lats.foldl (fun m l => if l < m ∨ m = 0 then l else m) 0

/-- `max_latency_ns` of `Summarize`: fold with the 0 sentinel. -/
def maxLatencyNs (lats : List Nat) : Nat :=
  lats.foldl (fun m l => if l > m ∨ m = 0 then l else m) 0

/-- `tol_latency_ns`, the sum of the in-window latencies.  The uint64
accumulator is modelled unbounded: wrapping it would need more than 2^64 ns
of total latency inside one window. -/
def tolLatencyNs (lats : List Nat) : Nat :=
  lats.foldl (· + ·) 0

/-- One term of the `tol_square_latency_us` accumulation:
`(request_latency * request_latency) / (1000 * 1000)`.  The multiplication is
performed in uint64 and wraps, hence the explicit `% 2 ^ 64`. -/
def squareLatencyTermUs (l : Nat) : Nat :=
  ((l * l) % 2 ^ 64) / (1000 * 1000)

/-- `tol_square_latency_us`, the accumulated sum of `squareLatencyTermUs`.
The uint64 accumulator is modelled as an unbounded sum; the no-overflow
theorem for claim C5 bounds this sum below `2 ^ 64` under realistic loads,
where the uint64 addition therefore agrees. -/
def tolSquareLatencyUs (lats : List Nat) : Nat :=
  (lats.map squareLatencyTermUs).foldl (· + ·) 0

section SentinelFolds

/-- The sentinel fold of `min_latency_ns`, run from a positive accumulator
over positive values, computes the minimum of the accumulator and the list. -/
theorem sentinel_min_fold_go (l : List Nat) :
    ∀ a, 0 < a → (∀ x ∈ l, 0 < x) →
      (l.foldl (fun m v => if v < m ∨ m = 0 then v else m) a ≤ a ∧
        (∀ x ∈ l, l.foldl (fun m v => if v < m ∨ m = 0 then v else m) a ≤ x) ∧
        (l.foldl (fun m v => if v < m ∨ m = 0 then v else m) a = a ∨
          l.foldl (fun m v => if v < m ∨ m = 0 then v else m) a ∈ l)) := by
  induction l with
  | nil => intro a _ _; simp
  | cons x l ih =>
    intro a ha hpos
    have hx : 0 < x := hpos x (List.mem_cons_self x l)
    have hstep : ((fun m v => if v < m ∨ m = 0 then v else m) a x) = min a x := by
      show (if x < a ∨ a = 0 then x else a) = min a x
      by_cases h0 : x < a ∨ a = 0
      · rw [if_pos h0]; omega
      · rw [if_neg h0]; omega
    have hmin : 0 < min a x := lt_min ha hx
    have hl : ∀ y ∈ l, 0 < y := fun y hy => hpos y (List.mem_cons_of_mem x hy)
    obtain ⟨h1, h2, h3⟩ := ih (min a x) hmin hl
    refine ⟨?_, ?_, ?_⟩
    · simpa [List.foldl_cons, hstep] using le_trans h1 (min_le_left a x)
    · intro y hy
      rcases List.mem_cons.mp hy with rfl | hy
      · simpa [List.foldl_cons, hstep] using le_trans h1 (min_le_right a y)
      · simpa [List.foldl_cons, hstep] using h2 y hy
    · simp only [List.foldl_cons, hstep]
      rcases h3 with h3 | h3
      · rcases min_choice a x with hc | hc
        · exact Or.inl (h3.trans hc)
        · exact Or.inr (List.mem_cons.mpr (Or.inl (h3.trans hc)))
      · exact Or.inr (List.mem_cons.mpr (Or.inr h3))

/-- Over a nonempty list of positive values, `minLatencyNs` is the genuine
minimum: the 0 sentinel is never mistaken for a seen value. -/
theorem minLatencyNs_spec (l : List Nat) (hne : l ≠ [])
    (hpos : ∀ x ∈ l, 0 < x) :
    (∀ x ∈ l, minLatencyNs l ≤ x) ∧ minLatencyNs l ∈ l := by
  obtain ⟨x, l', rfl⟩ := List.exists_cons_of_ne_nil hne
  have hx : 0 < x := hpos x (List.mem_cons_self x l')
  have hl : ∀ y ∈ l', 0 < y := fun y hy => hpos y (List.mem_cons_of_mem x hy)
  obtain ⟨h1, h2, h3⟩ := sentinel_min_fold_go l' x hx hl
  have hM : minLatencyNs (x :: l') =
      l'.foldl (fun m v => if v < m ∨ m = 0 then v else m) x := by
    simp [minLatencyNs]
  refine ⟨?_, ?_⟩
  · intro y hy
    rw [hM]
    rcases List.mem_cons.mp hy with rfl | hy'
    · exact h1
    · exact h2 y hy'
  · rw [hM]
    rcases h3 with h3 | h3
    · rw [h3]; exact List.mem_cons_self x l'
    · exact List.mem_cons_of_mem x h3

/-- The step function of the max sentinel fold is exactly `max`. -/
theorem sentinel_max_step (a v : Nat) :
    (if v > a ∨ a = 0 then v else a) = max a v := by
  by_cases h0 : v > a ∨ a = 0
  · rw [if_pos h0]; omega
  · rw [if_neg h0]; omega

/-- The sentinel fold of `max_latency_ns` computes the maximum of the
accumulator and the list (no positivity needed: `max 0 v = v` on `Nat`). -/
theorem sentinel_max_fold_go (l : List Nat) :
    ∀ a,
      (a ≤ l.foldl (fun m v => if v > m ∨ m = 0 then v else m) a ∧
        (∀ x ∈ l, x ≤ l.foldl (fun m v => if v > m ∨ m = 0 then v else m) a) ∧
        (l.foldl (fun m v => if v > m ∨ m = 0 then v else m) a = a ∨
          l.foldl (fun m v => if v > m ∨ m = 0 then v else m) a ∈ l)) := by
  induction l with
  | nil => intro a; simp
  | cons x l ih =>
    intro a
    obtain ⟨h1, h2, h3⟩ := ih (max a x)
    refine ⟨?_, ?_, ?_⟩
    · rw [List.foldl_cons, sentinel_max_step a x]
      exact le_trans (le_max_left a x) h1
    · intro y hy
      rw [List.foldl_cons, sentinel_max_step a x]
      rcases List.mem_cons.mp hy with rfl | hy'
      · exact le_trans (le_max_right a y) h1
      · exact h2 y hy'
    · rw [List.foldl_cons, sentinel_max_step a x]
      rcases h3 with h3 | h3
      · rcases max_choice a x with hc | hc
        · exact Or.inl (h3.trans hc)
        · exact Or.inr (List.mem_cons.mpr (Or.inl (h3.trans hc)))
      · exact Or.inr (List.mem_cons.mpr (Or.inr h3))

/-- Over a nonempty list, `maxLatencyNs` is the genuine maximum. -/
theorem maxLatencyNs_spec (l : List Nat) (hne : l ≠ []) :
    (∀ x ∈ l, x ≤ maxLatencyNs l) ∧ maxLatencyNs l ∈ l := by
  obtain ⟨x, l', rfl⟩ := List.exists_cons_of_ne_nil hne
  obtain ⟨h1, h2, h3⟩ := sentinel_max_fold_go (x :: l') 0
  refine ⟨h2, ?_⟩
  rcases h3 with h3 | h3
  · have h2x := h2 x (List.mem_cons_self x l')
    have hM : maxLatencyNs (x :: l') = 0 := h3
    have hx0 : x = 0 := by omega
    subst hx0
    rw [hM]
    exact List.mem_cons_self 0 l'
  · exact h3

end SentinelFolds

/-- `first_request_start_ns` is the min-sentinel fold over the start times. -/
theorem firstRequestStartNs_eq_fold (ts : List Timestamp) :
    firstRequestStartNs ts = minLatencyNs (ts.map fun t => t.1.toNs) := by
  simp [firstRequestStartNs, minLatencyNs, List.foldl_map]

/-- `last_request_end_ns` is the max-sentinel fold over the end times. -/
theorem lastRequestEndNs_eq_fold (ts : List Timestamp) :
    lastRequestEndNs ts = maxLatencyNs (ts.map fun t => t.2.toNs) := by
  simp [lastRequestEndNs, maxLatencyNs, List.foldl_map]

/-- `nic::InferContext::Stat`: the per-context accumulators read by the core. -/
structure Stat where
  completed_request_count : Nat
  cumulative_total_request_time_ns : Nat
  cumulative_send_time_ns : Nat
  cumulative_receive_time_ns : Nat
deriving DecidableEq

/-- `PerfStatus` (`PerformanceStatusStruct`), all counters and times as
non-negative machine integers. -/
structure PerfStatus where
  concurrency : Nat
  batch_size : Nat
  server_request_count : Nat
  server_cumm_time_ns : Nat
  server_queue_time_ns : Nat
  server_compute_time_ns : Nat
  client_request_count : Nat
  client_duration_ns : Nat
  client_min_latency_ns : Nat
  client_max_latency_ns : Nat
  client_avg_latency_ns : Nat
  std_us : Nat
  client_avg_request_time_ns : Nat
  client_avg_send_time_ns : Nat
  client_avg_receive_time_ns : Nat
  client_infer_per_sec : Nat
deriving DecidableEq

/-- The latencies of the timestamps that fall inside the measurement window
selected by `Summarize` for a drained snapshot `ts` and window `ms` msec. -/
def windowLatencies (ms : Nat) (ts : List Timestamp) : List Nat :=
  validLatencies (clientStartNs ts (measurementWindowNs ms))
    (clientEndNs ts (measurementWindowNs ms)) ts

/-- `expected_square_latency_us = tol_square_latency_us / valid_timestamp_count`. -/
def expectedSquareLatencyUs (lats : List Nat) : Nat :=
  tolSquareLatencyUs lats / lats.length

/-- `square_avg_latency_us =
(client_avg_latency_ns * client_avg_latency_ns) / (1000 * 1000)`; the uint64
product wraps, hence the explicit `% 2 ^ 64`. -/
def squareAvgLatencyUs (lats : List Nat) : Nat :=
  ((tolLatencyNs lats / lats.length) * (tolLatencyNs lats / lats.length)
    % 2 ^ 64) / (1000 * 1000)

/-- `var_us = (expected_square_latency_us > square_avg_latency_us)
? (expected_square_latency_us - square_avg_latency_us) : 0`. -/
def varianceUs (lats : List Nat) : Nat :=
  if expectedSquareLatencyUs lats > squareAvgLatencyUs lats then
    expectedSquareLatencyUs lats - squareAvgLatencyUs lats
  else 0

/-- The client half of `ConcurrencyManager::Summarize`
(perf_client.cc lines 497-605): window selection over the drained snapshot,
per-window latency statistics, and the per-context averages guarded by
`completed_count != 0`.  `(int)(... / client_duration_sec)` divides by the
32-bit float `client_duration_ns / NANOS_PER_SECOND` and truncates; it is
modelled as the exact rational quotient
`n * batch_size * NANOS_PER_SECOND / duration_ns`, truncated.
`(uint64_t)(sqrt(var_us))` is `Nat.sqrt` (exact for `var_us < 2 ^ 53`).
The uint64 subtractions `end_stat - start_stat` act on accumulators that are
monotonic in the client library, so they are modelled by truncated `Nat`
subtraction. -/
def summarizeClient (ms bs : Nat) (ts : List Timestamp)
    (startStat endStat : Stat) (summary : PerfStatus) :
    Except String PerfStatus :=
  if (windowLatencies ms ts).length = 0 then
    .error "No valid requests recorded within time interval. Please use a larger time window."
  else
    .ok { summary with
      batch_size := bs
      client_request_count := (windowLatencies ms ts).length
      client_duration_ns :=
        clientEndNs ts (measurementWindowNs ms) -
          clientStartNs ts (measurementWindowNs ms)
      client_infer_per_sec :=
        (windowLatencies ms ts).length * bs * NANOS_PER_SECOND /
          (clientEndNs ts (measurementWindowNs ms) -
            clientStartNs ts (measurementWindowNs ms))
      client_min_latency_ns := minLatencyNs (windowLatencies ms ts)
      client_max_latency_ns := maxLatencyNs (windowLatencies ms ts)
      client_avg_latency_ns :=
        tolLatencyNs (windowLatencies ms ts) / (windowLatencies ms ts).length
      std_us := Nat.sqrt (varianceUs (windowLatencies ms ts))
      client_avg_request_time_ns :=
        if endStat.completed_request_count -
            startStat.completed_request_count ≠ 0 then
          (endStat.cumulative_total_request_time_ns -
              startStat.cumulative_total_request_time_ns) /
            (endStat.completed_request_count -
              startStat.completed_request_count)
        else summary.client_avg_request_time_ns
      client_avg_send_time_ns :=
        if endStat.completed_request_count -
            startStat.completed_request_count ≠ 0 then
          (endStat.cumulative_send_time_ns -
              startStat.cumulative_send_time_ns) /
            (endStat.completed_request_count -
              startStat.completed_request_count)
        else summary.client_avg_send_time_ns
      client_avg_receive_time_ns :=
        if endStat.completed_request_count -
            startStat.completed_request_count ≠ 0 then
          (endStat.cumulative_receive_time_ns -
              startStat.cumulative_receive_time_ns) /
            (endStat.completed_request_count -
              startStat.completed_request_count)
        else summary.client_avg_receive_time_ns }

/-- The all-zero context stat. -/
def statZero : Stat := ⟨0, 0, 0, 0⟩

/-- An all-zero `PerfStatus` (the fields a fresh measurement starts from). -/
def perfZero : PerfStatus := ⟨0, 0, 0, 0, 0, 0, 0, 0, 0, 0, 0, 0, 0, 0, 0, 0⟩

/-- A sample window used by the concrete witness evaluations: five
sentinel-free timestamps with positive clock values. -/
def sampleTimestamps : List Timestamp :=
  [(⟨0, 1⟩, ⟨0, 2⟩), (⟨0, 1⟩, ⟨0, 3⟩), (⟨0, 1⟩, ⟨0, 4⟩),
   (⟨0, 1⟩, ⟨0, 5⟩), (⟨0, 1⟩, ⟨0, 6⟩)]

/-- C1: for every drained (nonempty) snapshot whose recorded start times are
genuine monotonic-clock values (hence nonzero — the fold uses 0 as the
"unset" sentinel), `Summarize` takes `t0` = the minimum start time, `tN` =
the maximum end time, positions the window as
`offset = max(0, (tN - (t0 + W)) / 2)`, `client_start = t0 + offset`,
`client_end = client_start + W`, and counts a timestamp `(s, e)` as inside
the window iff `s ≤ e ∧ client_start ≤ e ∧ e ≤ client_end`. -/
theorem c1_window_selection (ts : List Timestamp) (ms : Nat) (hne : ts ≠ [])
    (hpos : ∀ t ∈ ts, 0 < t.1.toNs) :
    ((∀ t ∈ ts, firstRequestStartNs ts ≤ t.1.toNs) ∧
      (∃ t ∈ ts, firstRequestStartNs ts = t.1.toNs)) ∧
    ((∀ t ∈ ts, t.2.toNs ≤ lastRequestEndNs ts) ∧
      (∃ t ∈ ts, lastRequestEndNs ts = t.2.toNs)) ∧
    windowOffset (firstRequestStartNs ts) (lastRequestEndNs ts)
        (measurementWindowNs ms) =
      Int.toNat (max 0 (((lastRequestEndNs ts : Int) -
        ((firstRequestStartNs ts : Int) + (measurementWindowNs ms : Int))) / 2)) ∧
    clientStartNs ts (measurementWindowNs ms) =
      firstRequestStartNs ts + windowOffset (firstRequestStartNs ts)
        (lastRequestEndNs ts) (measurementWindowNs ms) ∧
    clientEndNs ts (measurementWindowNs ms) =
      clientStartNs ts (measurementWindowNs ms) + measurementWindowNs ms ∧
    (∀ t : Timestamp,
      isValidTimestamp (clientStartNs ts (measurementWindowNs ms))
          (clientEndNs ts (measurementWindowNs ms)) t = true ↔
        t.1.toNs ≤ t.2.toNs ∧
          clientStartNs ts (measurementWindowNs ms) ≤ t.2.toNs ∧
          t.2.toNs ≤ clientEndNs ts (measurementWindowNs ms)) := by
  have hmapne : (ts.map fun t => t.1.toNs) ≠ [] := by
    simpa using hne
  have hmapne2 : (ts.map fun t => t.2.toNs) ≠ [] := by
    simpa using hne
  have hmappos : ∀ x ∈ ts.map fun t => t.1.toNs, 0 < x := by
    intro x hx
    obtain ⟨t, ht, rfl⟩ := List.mem_map.mp hx
    exact hpos t ht
  obtain ⟨hmin1, hmin2⟩ :=
    minLatencyNs_spec (ts.map fun t => t.1.toNs) hmapne hmappos
  obtain ⟨hmax1, hmax2⟩ := maxLatencyNs_spec (ts.map fun t => t.2.toNs) hmapne2
  refine ⟨⟨?_, ?_⟩, ⟨?_, ?_⟩, ?_, rfl, rfl, ?_⟩
  · intro t ht
    rw [firstRequestStartNs_eq_fold]
    exact hmin1 _ (List.mem_map.mpr ⟨t, ht, rfl⟩)
  · rw [firstRequestStartNs_eq_fold]
    obtain ⟨t, ht, hv⟩ := List.mem_map.mp hmin2
    exact ⟨t, ht, hv.symm⟩
  · intro t ht
    rw [lastRequestEndNs_eq_fold]
    exact hmax1 _ (List.mem_map.mpr ⟨t, ht, rfl⟩)
  · rw [lastRequestEndNs_eq_fold]
    obtain ⟨t, ht, hv⟩ := List.mem_map.mp hmax2
    exact ⟨t, ht, hv.symm⟩
  · unfold windowOffset
    split <;> omega
  · intro t
    simp [isValidTimestamp, and_assoc]

/-- Witness for C1: the hypotheses and the conclusion hold at the concrete
five-timestamp snapshot with a 1 ms window. -/
theorem c1_window_selection_witness :
    (sampleTimestamps ≠ [] ∧ ∀ t ∈ sampleTimestamps, 0 < t.1.toNs) ∧
    (((∀ t ∈ sampleTimestamps,
        firstRequestStartNs sampleTimestamps ≤ t.1.toNs) ∧
      (∃ t ∈ sampleTimestamps,
        firstRequestStartNs sampleTimestamps = t.1.toNs)) ∧
    ((∀ t ∈ sampleTimestamps, t.2.toNs ≤ lastRequestEndNs sampleTimestamps) ∧
      (∃ t ∈ sampleTimestamps,
        lastRequestEndNs sampleTimestamps = t.2.toNs)) ∧
    windowOffset (firstRequestStartNs sampleTimestamps)
        (lastRequestEndNs sampleTimestamps) (measurementWindowNs 1) =
      Int.toNat (max 0 (((lastRequestEndNs sampleTimestamps : Int) -
        ((firstRequestStartNs sampleTimestamps : Int) +
          (measurementWindowNs 1 : Int))) / 2)) ∧
    clientStartNs sampleTimestamps (measurementWindowNs 1) =
      firstRequestStartNs sampleTimestamps +
        windowOffset (firstRequestStartNs sampleTimestamps)
          (lastRequestEndNs sampleTimestamps) (measurementWindowNs 1) ∧
    clientEndNs sampleTimestamps (measurementWindowNs 1) =
      clientStartNs sampleTimestamps (measurementWindowNs 1) +
        measurementWindowNs 1 ∧
    (∀ t : Timestamp,
      isValidTimestamp (clientStartNs sampleTimestamps (measurementWindowNs 1))
          (clientEndNs sampleTimestamps (measurementWindowNs 1)) t = true ↔
        t.1.toNs ≤ t.2.toNs ∧
          clientStartNs sampleTimestamps (measurementWindowNs 1) ≤ t.2.toNs ∧
          t.2.toNs ≤ clientEndNs sampleTimestamps (measurementWindowNs 1))) :=
  ⟨⟨by decide, by decide⟩,
    c1_window_selection sampleTimestamps 1 (by decide) (by decide)⟩

/-- The latency accumulator is the list sum. -/
theorem tolLatencyNs_eq_sum (l : List Nat) : tolLatencyNs l = l.sum :=
  List.sum_eq_foldl.symm

/-- `min_latency_ns ≤ client_avg_latency_ns` over a nonempty window of
positive latencies. -/
theorem min_le_avgLatency (l : List Nat) (hne : l ≠ [])
    (hpos : ∀ x ∈ l, 0 < x) :
    minLatencyNs l ≤ tolLatencyNs l / l.length := by
  obtain ⟨hmin, _⟩ := minLatencyNs_spec l hne hpos
  have hlen : 0 < l.length := List.length_pos.mpr hne
  rw [Nat.le_div_iff_mul_le hlen, tolLatencyNs_eq_sum]
  have h1 : l.length • minLatencyNs l ≤ l.sum :=
    List.card_nsmul_le_sum l _ hmin
  simpa [smul_eq_mul, Nat.mul_comm] using h1

/-- `client_avg_latency_ns ≤ max_latency_ns` over a nonempty window. -/
theorem avg_le_maxLatency (l : List Nat) (hne : l ≠ []) :
    tolLatencyNs l / l.length ≤ maxLatencyNs l := by
  obtain ⟨hmax, _⟩ := maxLatencyNs_spec l hne
  have h1 : l.sum ≤ l.length • maxLatencyNs l :=
    List.sum_le_card_nsmul l _ hmax
  rw [tolLatencyNs_eq_sum]
  exact Nat.div_le_of_le_mul (by simpa [smul_eq_mul] using h1)

/-- Bounds for the truncated throughput: with `q = n * bs * 10^9 / d`
(the modelled `client_infer_per_sec`), the claim quantity
`q * (d / 10^9) / bs` lies in `(n - 1, n]` as soon as the window length `d`
is at most `bs` seconds. -/
theorem inferPerSec_bounds (n bs d : Nat) (hd : 0 < d) (hb : 0 < bs)
    (hwin : d ≤ bs * NANOS_PER_SECOND) :
    (n : ℚ) - 1 ≤ ((n * bs * NANOS_PER_SECOND / d : Nat) : ℚ) *
        ((d : ℚ) / (NANOS_PER_SECOND : ℚ)) / (bs : ℚ) ∧
      ((n * bs * NANOS_PER_SECOND / d : Nat) : ℚ) *
        ((d : ℚ) / (NANOS_PER_SECOND : ℚ)) / (bs : ℚ) ≤ (n : ℚ) := by
  have h1 : n * bs * NANOS_PER_SECOND / d * d ≤ n * bs * NANOS_PER_SECOND :=
    Nat.div_mul_le_self _ d
  have h2 : n * bs * NANOS_PER_SECOND <
      (n * bs * NANOS_PER_SECOND / d + 1) * d :=
    (Nat.div_lt_iff_lt_mul hd).mp (Nat.lt_succ_self _)
  have hdQ : (0 : ℚ) < (d : ℚ) := by exact_mod_cast hd
  have hbQ : (0 : ℚ) < (bs : ℚ) := by exact_mod_cast hb
  have hnsQ : (0 : ℚ) < (NANOS_PER_SECOND : ℚ) := by
    norm_num [NANOS_PER_SECOND]
  have h1Q : ((n * bs * NANOS_PER_SECOND / d : Nat) : ℚ) * (d : ℚ) ≤
      (n : ℚ) * (bs : ℚ) * (NANOS_PER_SECOND : ℚ) := by
    exact_mod_cast h1
  have h2Q : (n : ℚ) * (bs : ℚ) * (NANOS_PER_SECOND : ℚ) <
      (((n * bs * NANOS_PER_SECOND / d : Nat) : ℚ) + 1) * (d : ℚ) := by
    exact_mod_cast h2
  have hwinQ : (d : ℚ) ≤ (bs : ℚ) * (NANOS_PER_SECOND : ℚ) := by
    exact_mod_cast hwin
  constructor
  · rw [le_div_iff₀ hbQ, ← mul_div_assoc, le_div_iff₀ hnsQ]
    nlinarith [h2Q, hwinQ]
  · rw [div_le_iff₀ hbQ, ← mul_div_assoc, div_le_iff₀ hnsQ]
    linarith [h1Q]

/-- A window holding a zero-latency timestamp (start = end, which passes the
`s ≤ e` sentinel filter) followed by a 5 ns one. -/
def zeroLatencyTimestamps : List Timestamp :=
  [(⟨0, 5⟩, ⟨0, 5⟩), (⟨0, 1⟩, ⟨0, 6⟩)]

/-- C2 counterexample.  First: with a 3000 ms window and batch size 1, the
sample snapshot yields `client_infer_per_sec = 1` for 5 in-window
timestamps, and `1 * (3000000000 / 10^9) / 1 = 3` differs from 5 by more
than 1 — the truncation error of `(int)(count * batch / duration_sec)` is
only bounded by the window length in seconds divided by the batch size.
Second: a zero in-window latency defeats the `min_latency_ns == 0` sentinel,
producing `min = 5 > avg = 2` — `min ≤ avg` also fails as stated. -/
theorem c2_counterexample :
    ((summarizeClient 3000 1 sampleTimestamps statZero statZero perfZero).map
        (fun s => (s.client_infer_per_sec, s.client_request_count,
          s.client_duration_ns, s.batch_size)) =
      .ok (1, 5, 3000000000, 1) ∧
    ¬(|(1 : ℚ) * ((3000000000 : ℚ) / (NANOS_PER_SECOND : ℚ)) / (1 : ℚ) -
        (5 : ℚ)| ≤ 1)) ∧
    ((summarizeClient 1 1 zeroLatencyTimestamps statZero statZero
        perfZero).map
        (fun s => (s.client_min_latency_ns, s.client_avg_latency_ns)) =
      .ok (5, 2) ∧
    ¬((5 : Nat) ≤ 2)) := by
  refine ⟨⟨?_, ?_⟩, ?_, ?_⟩
  · rfl
  · rw [show (NANOS_PER_SECOND : ℚ) = (1000000000 : ℚ) by
      norm_num [NANOS_PER_SECOND]]
    norm_num
  · rfl
  · decide

/-- C2 (amended): for any window with at least one valid timestamp, all of
whose latencies are positive (a zero latency defeats the 0-sentinel of the
minimum fold), the produced `PerfStatus` satisfies `min ≤ avg ≤ max` and
`std_us ≥ 0`; and provided the measurement window is at most `batch_size`
seconds, `client_infer_per_sec * window_seconds / batch_size` lies within
`(count - 1, count]` — in general the truncation error is only bounded by
`window_seconds / batch_size`. -/
theorem c2_perfstatus_invariants (ms bs : Nat) (ts : List Timestamp)
    (startStat endStat : Stat) (summary s' : PerfStatus)
    (h : summarizeClient ms bs ts startStat endStat summary = .ok s')
    (hpos : ∀ l ∈ windowLatencies ms ts, 0 < l)
    (hb : 0 < bs)
    (hwin : measurementWindowNs ms ≤ bs * NANOS_PER_SECOND)
    (hd : 0 < measurementWindowNs ms) :
    s'.client_min_latency_ns ≤ s'.client_avg_latency_ns ∧
    s'.client_avg_latency_ns ≤ s'.client_max_latency_ns ∧
    0 ≤ s'.std_us ∧
    (s'.client_request_count : ℚ) - 1 ≤
      (s'.client_infer_per_sec : ℚ) *
        ((s'.client_duration_ns : ℚ) / (NANOS_PER_SECOND : ℚ)) /
        (s'.batch_size : ℚ) ∧
    (s'.client_infer_per_sec : ℚ) *
        ((s'.client_duration_ns : ℚ) / (NANOS_PER_SECOND : ℚ)) /
        (s'.batch_size : ℚ) ≤ (s'.client_request_count : ℚ) := by
  have hdur : clientEndNs ts (measurementWindowNs ms) -
      clientStartNs ts (measurementWindowNs ms) = measurementWindowNs ms := by
    unfold clientEndNs
    omega
  unfold summarizeClient at h
  split at h
  · exact Except.noConfusion h
  · rename_i hc
    have hrec := Except.ok.inj h
    subst hrec
    have hne : windowLatencies ms ts ≠ [] := by
      intro he
      exact hc (by rw [he]; rfl)
    dsimp only
    rw [hdur]
    obtain ⟨hlo, hhi⟩ :=
      inferPerSec_bounds (windowLatencies ms ts).length bs
        (measurementWindowNs ms) hd hb hwin
    exact ⟨min_le_avgLatency _ hne hpos, avg_le_maxLatency _ hne,
      Nat.zero_le _, hlo, hhi⟩

/-- The concrete `PerfStatus` that `summarizeClient` produces on the sample
snapshot with a 1 ms window and batch size 1 (used by several witnesses). -/
def sampleStatus : PerfStatus :=
  match summarizeClient 1 1 sampleTimestamps statZero statZero perfZero with
  | .ok s => s
  | .error _ => perfZero

/-- Witness for C2 (amended): hypotheses and conclusion at the concrete
sample snapshot. -/
theorem c2_perfstatus_invariants_witness :
    (summarizeClient 1 1 sampleTimestamps statZero statZero perfZero =
        .ok sampleStatus ∧
      (∀ l ∈ windowLatencies 1 sampleTimestamps, 0 < l) ∧
      (0 : Nat) < 1 ∧ measurementWindowNs 1 ≤ 1 * NANOS_PER_SECOND ∧
      0 < measurementWindowNs 1) ∧
    (sampleStatus.client_min_latency_ns ≤ sampleStatus.client_avg_latency_ns ∧
    sampleStatus.client_avg_latency_ns ≤ sampleStatus.client_max_latency_ns ∧
    0 ≤ sampleStatus.std_us ∧
    (sampleStatus.client_request_count : ℚ) - 1 ≤
      (sampleStatus.client_infer_per_sec : ℚ) *
        ((sampleStatus.client_duration_ns : ℚ) / (NANOS_PER_SECOND : ℚ)) /
        (sampleStatus.batch_size : ℚ) ∧
    (sampleStatus.client_infer_per_sec : ℚ) *
        ((sampleStatus.client_duration_ns : ℚ) / (NANOS_PER_SECOND : ℚ)) /
        (sampleStatus.batch_size : ℚ) ≤ (sampleStatus.client_request_count : ℚ)) :=
  ⟨⟨by rfl, by decide, by decide, by decide, by decide⟩,
    c2_perfstatus_invariants 1 1 sampleTimestamps statZero statZero perfZero
      sampleStatus (by rfl) (by decide) (by decide) (by decide) (by decide)⟩

/-- Each microsecond square term is at most `(2^32 - 1)^2 / 10^6` when the
latency is below `2^32` ns (about 4.29 s). -/
theorem squareLatencyTermUs_le (l : Nat) (hl : l < 2 ^ 32) :
    squareLatencyTermUs l ≤ 18446744065119 := by
  unfold squareLatencyTermUs
  have h1 : l * l ≤ (2 ^ 32 - 1) * (2 ^ 32 - 1) :=
    Nat.mul_le_mul (by omega) (by omega)
  have h2 : l * l % 2 ^ 64 ≤ l * l := Nat.mod_le _ _
  calc (l * l % 2 ^ 64) / (1000 * 1000)
      ≤ ((2 ^ 32 - 1) * (2 ^ 32 - 1)) / (1000 * 1000) :=
        Nat.div_le_div_right (le_trans h2 h1)
    _ = 18446744065119 := by norm_num

/-- The square accumulator is the sum of the per-term values. -/
theorem tolSquareLatencyUs_eq_sum (l : List Nat) :
    tolSquareLatencyUs l = (l.map squareLatencyTermUs).sum :=
  List.sum_eq_foldl.symm

/-- C5: the produced `std_us` is the floor square root of
`max(0, sum(latency_us^2)/n - (avg_latency_us)^2)` (the microsecond square
values being the code's `latency_ns^2 / 10^6` conversions), and under
realistic loads — every latency below `2^32` ns (about 4.29 s) and at most
`10^6` in-window requests — no term of the square-of-latency accumulation
wraps 64 bits and the running sum stays below `2^64`. -/
theorem c5_variance_and_overflow (ms bs : Nat) (ts : List Timestamp)
    (startStat endStat : Stat) (summary s' : PerfStatus)
    (h : summarizeClient ms bs ts startStat endStat summary = .ok s')
    (hlat : ∀ l ∈ windowLatencies ms ts, l < 2 ^ 32)
    (hcount : (windowLatencies ms ts).length ≤ 1000000) :
    s'.std_us = Nat.sqrt (Int.toNat (max 0
      ((expectedSquareLatencyUs (windowLatencies ms ts) : ℤ) -
        (squareAvgLatencyUs (windowLatencies ms ts) : ℤ)))) ∧
    (∀ l ∈ windowLatencies ms ts, l * l < 2 ^ 64) ∧
    tolSquareLatencyUs (windowLatencies ms ts) < 2 ^ 64 := by
  have hv : varianceUs (windowLatencies ms ts) = Int.toNat (max 0
      ((expectedSquareLatencyUs (windowLatencies ms ts) : ℤ) -
        (squareAvgLatencyUs (windowLatencies ms ts) : ℤ))) := by
    unfold varianceUs
    split <;> omega
  refine ⟨?_, ?_, ?_⟩
  · unfold summarizeClient at h
    split at h
    · exact Except.noConfusion h
    · have hrec := Except.ok.inj h
      subst hrec
      dsimp only
      rw [hv]
  · intro l hl
    calc l * l < 2 ^ 32 * 2 ^ 32 := Nat.mul_lt_mul'' (hlat l hl) (hlat l hl)
    _ = 2 ^ 64 := by norm_num
  · have hterm : ∀ x ∈ (windowLatencies ms ts).map squareLatencyTermUs,
        x ≤ 18446744065119 := by
      intro x hx
      obtain ⟨l, hl, rfl⟩ := List.mem_map.mp hx
      exact squareLatencyTermUs_le l (hlat l hl)
    have hsum : ((windowLatencies ms ts).map squareLatencyTermUs).sum ≤
        ((windowLatencies ms ts).map squareLatencyTermUs).length •
          18446744065119 :=
      List.sum_le_card_nsmul _ _ hterm
    rw [tolSquareLatencyUs_eq_sum]
    have hlen : ((windowLatencies ms ts).map squareLatencyTermUs).length =
        (windowLatencies ms ts).length := List.length_map _ _
    calc ((windowLatencies ms ts).map squareLatencyTermUs).sum
        ≤ (windowLatencies ms ts).length * 18446744065119 := by
          rw [hlen] at hsum
          simpa [smul_eq_mul] using hsum
      _ ≤ 1000000 * 18446744065119 := Nat.mul_le_mul_right _ hcount
      _ < 2 ^ 64 := by norm_num

/-- Witness for C5: hypotheses and conclusion at the concrete sample
snapshot (window 1 ms, batch 1, latencies 1..5 ns). -/
theorem c5_variance_and_overflow_witness :
    (summarizeClient 1 1 sampleTimestamps statZero statZero perfZero =
        .ok sampleStatus ∧
      (∀ l ∈ windowLatencies 1 sampleTimestamps, l < 2 ^ 32) ∧
      (windowLatencies 1 sampleTimestamps).length ≤ 1000000) ∧
    (sampleStatus.std_us = Nat.sqrt (Int.toNat (max 0
      ((expectedSquareLatencyUs (windowLatencies 1 sampleTimestamps) : ℤ) -
        (squareAvgLatencyUs (windowLatencies 1 sampleTimestamps) : ℤ)))) ∧
    (∀ l ∈ windowLatencies 1 sampleTimestamps, l * l < 2 ^ 64) ∧
    tolSquareLatencyUs (windowLatencies 1 sampleTimestamps) < 2 ^ 64) :=
  ⟨⟨by rfl, by decide, by decide⟩,
    c5_variance_and_overflow 1 1 sampleTimestamps statZero statZero perfZero
      sampleStatus (by rfl) (by decide) (by decide)⟩

/-- A nonzero summary, standing for the stale contents of the caller's
`PerfStatus` struct before `Summarize` runs. -/
def staleSummary : PerfStatus :=
  { perfZero with
    client_avg_request_time_ns := 7
    client_avg_send_time_ns := 8
    client_avg_receive_time_ns := 9 }

/-- A context-stat snapshot with nonzero accumulators, used for both ends of
a window (so every delta is zero). -/
def statSame : Stat := ⟨3, 100, 40, 50⟩

/-- C7 counterexample: with a zero `completed_request_count` delta the three
client-library averages are not assigned at all, so they keep the previous
contents of the summary struct (7, 8, 9 here) instead of being reported as
zero. -/
theorem c7_counterexample :
    (summarizeClient 1 1 sampleTimestamps statSame statSame staleSummary).map
        (fun s => (s.client_avg_request_time_ns, s.client_avg_send_time_ns,
          s.client_avg_receive_time_ns)) = .ok (7, 8, 9) ∧
    ((7, 8, 9) : Nat × Nat × Nat) ≠ (0, 0, 0) := by
  exact ⟨by rfl, by decide⟩

/-- C7 (amended): a zero `completed_request_count` delta skips the three
divisions entirely — no division by zero occurs — and leaves
`client_avg_request_time_ns`, `client_avg_send_time_ns` and
`client_avg_receive_time_ns` at the values already stored in the summary
struct (stale, or indeterminate on the first measurement), not zero. -/
theorem c7_zero_delta_keeps_fields (ms bs : Nat) (ts : List Timestamp)
    (startStat endStat : Stat) (summary s' : PerfStatus)
    (h : summarizeClient ms bs ts startStat endStat summary = .ok s')
    (hzero : endStat.completed_request_count -
      startStat.completed_request_count = 0) :
    s'.client_avg_request_time_ns = summary.client_avg_request_time_ns ∧
    s'.client_avg_send_time_ns = summary.client_avg_send_time_ns ∧
    s'.client_avg_receive_time_ns = summary.client_avg_receive_time_ns := by
  unfold summarizeClient at h
  split at h
  · exact Except.noConfusion h
  · have hrec := Except.ok.inj h
    subst hrec
    dsimp only
    rw [if_neg (by omega), if_neg (by omega), if_neg (by omega)]
    exact ⟨rfl, rfl, rfl⟩

/-- The concrete `PerfStatus` produced from the stale summary with equal
start and end context stats. -/
def c7status : PerfStatus :=
  match summarizeClient 1 1 sampleTimestamps statSame statSame staleSummary with
  | .ok s => s
  | .error _ => perfZero

/-- Witness for C7 (amended): at the concrete input with a zero completed
delta, the three averages equal the stale summary fields. -/
theorem c7_zero_delta_keeps_fields_witness :
    (summarizeClient 1 1 sampleTimestamps statSame statSame staleSummary =
        .ok c7status ∧
      statSame.completed_request_count - statSame.completed_request_count = 0) ∧
    (c7status.client_avg_request_time_ns =
        staleSummary.client_avg_request_time_ns ∧
      c7status.client_avg_send_time_ns = staleSummary.client_avg_send_time_ns ∧
      c7status.client_avg_receive_time_ns =
        staleSummary.client_avg_receive_time_ns) :=
  ⟨⟨by rfl, by decide⟩,
    c7_zero_delta_keeps_fields 1 1 sampleTimestamps statSame statSame
      staleSummary c7status (by rfl) (by decide)⟩

/-! The stability loop of `ConcurrencyManager::Step`
(perf_client.cc lines 309-386).  The loop keeps a sliding sum
`avg_ips += (double)infer_per_sec.back() / recent_k` (exact rational here)
and `avg_latency += latencies.back() / recent_k` (uint64, truncating integer
division) over the most recent `recent_k = 3` samples, and declares the run
stable at the first sample count `>= 3` whose last three samples all lie
within the `(1 ± stable_offset)` band of both running means; if it never
does before `max_measurement_count` samples, `stable` is left false — except
that with fewer than 3 samples in total the flag keeps its initial `true`.
The two `double` comparisons per sample are modelled over `ℚ`. -/

/-- The infer-per-second band check of one loop iteration:
`!(v < avg * (1 - off)) && !(v > avg * (1 + off))`. -/
def ipsOk (off avg : ℚ) (v : ℤ) : Bool :=
  !(decide ((v : ℚ) < avg * (1 - off))) &&
    !(decide ((v : ℚ) > avg * (1 + off)))

/-- The latency band check of one loop iteration; the running mean `avg` is
a uint64 (`Nat`), promoted to `double` (`ℚ`) for the comparisons. -/
def latOk (off : ℚ) (avg : Nat) (v : Nat) : Bool :=
  !(decide ((v : ℚ) < (avg : ℚ) * (1 - off))) &&
    !(decide ((v : ℚ) > (avg : ℚ) * (1 + off)))

/-- The sliding `avg_ips` over one window of three samples: the exact value
of `a/3 + b/3 + c/3` accumulated in `double`. -/
def avgIpsWindow (a b c : ℤ) : ℚ := (a : ℚ) / 3 + (b : ℚ) / 3 + (c : ℚ) / 3

/-- The sliding `avg_latency` over one window: `x/3 + y/3 + z/3` with
truncating uint64 division by `recent_k = 3`. -/
def avgLatWindow (x y z : Nat) : Nat := x / 3 + y / 3 + z / 3

/-- The stability check for the window of the three most recent samples
(ips `a b c`, latencies `x y z`), in the loop's check order. -/
def stable3 (off : ℚ) (a b c : ℤ) (x y z : Nat) : Bool :=
  ipsOk off (avgIpsWindow a b c) a && latOk off (avgLatWindow x y z) x &&
    ipsOk off (avgIpsWindow a b c) b && latOk off (avgLatWindow x y z) y &&
    ipsOk off (avgIpsWindow a b c) c && latOk off (avgLatWindow x y z) z

/-- Successive window checks: the loop breaks at the first stable window;
with no stable window the final flag is false. -/
def stabilityWindows (off : ℚ) : List ℤ → List Nat → Bool
  | a :: b :: c :: restI, x :: y :: z :: restL =>
      stable3 off a b c x y z ||
        stabilityWindows off (b :: c :: restI) (y :: z :: restL)
  | _, _ => false

/-- The final `stable` flag of the measurement loop as a function of the
sample streams: initially true, first examined at three samples
("Stable will only be changed if max_measurement_count >= recent_k"). -/
def stabilityDeclared (off : ℚ) (ips : List ℤ) (lats : List Nat) : Bool :=
  if ips.length < 3 then true else stabilityWindows off ips lats

/-- Scaling both the sample and the window mean by a positive constant does
not change the infer-per-second band check (the `double` side is exact). -/
theorem ipsOk_scale (off avg : ℚ) (v : ℤ) (c : Nat) (hc : 0 < c) :
    ipsOk off ((c : ℚ) * avg) ((c : ℤ) * v) = ipsOk off avg v := by
  have hcQ : (0 : ℚ) < (c : ℚ) := by exact_mod_cast hc
  unfold ipsOk
  have h1 : (((c : ℤ) * v : ℤ) : ℚ) < ((c : ℚ) * avg) * (1 - off) ↔
      (v : ℚ) < avg * (1 - off) := by
    push_cast
    rw [mul_assoc]
    exact mul_lt_mul_left hcQ
  have h2 : (((c : ℤ) * v : ℤ) : ℚ) > ((c : ℚ) * avg) * (1 + off) ↔
      (v : ℚ) > avg * (1 + off) := by
    push_cast
    rw [mul_assoc]
    exact mul_lt_mul_left hcQ
  rw [decide_eq_decide.mpr h1, decide_eq_decide.mpr h2]

/-- Scaling both the sample and the window mean by a positive constant does
not change the latency band check. -/
theorem latOk_scale (off : ℚ) (avg v : Nat) (c : Nat) (hc : 0 < c) :
    latOk off (c * avg) (c * v) = latOk off avg v := by
  have hcQ : (0 : ℚ) < (c : ℚ) := by exact_mod_cast hc
  unfold latOk
  have h1 : ((c * v : Nat) : ℚ) < ((c * avg : Nat) : ℚ) * (1 - off) ↔
      (v : ℚ) < (avg : ℚ) * (1 - off) := by
    push_cast
    rw [mul_assoc]
    exact mul_lt_mul_left hcQ
  have h2 : ((c * v : Nat) : ℚ) > ((c * avg : Nat) : ℚ) * (1 + off) ↔
      (v : ℚ) > (avg : ℚ) * (1 + off) := by
    push_cast
    rw [mul_assoc]
    exact mul_lt_mul_left hcQ
  rw [decide_eq_decide.mpr h1, decide_eq_decide.mpr h2]

/-- The exact rational ips mean scales linearly. -/
theorem avgIpsWindow_scale (a b cc : ℤ) (c : Nat) :
    avgIpsWindow ((c : ℤ) * a) ((c : ℤ) * b) ((c : ℤ) * cc) =
      (c : ℚ) * avgIpsWindow a b cc := by
  unfold avgIpsWindow
  push_cast
  ring

/-- The truncating latency mean scales linearly as soon as each latency is a
multiple of `recent_k = 3` (in general it does not). -/
theorem avgLatWindow_scale (x y z : Nat) (c : Nat)
    (hx : 3 ∣ x) (hy : 3 ∣ y) (hz : 3 ∣ z) :
    avgLatWindow (c * x) (c * y) (c * z) = c * avgLatWindow x y z := by
  obtain ⟨x1, rfl⟩ := hx
  obtain ⟨y1, rfl⟩ := hy
  obtain ⟨z1, rfl⟩ := hz
  have e : ∀ k m : Nat, k * (3 * m) / 3 = k * m := by
    intro k m
    rw [show k * (3 * m) = 3 * (k * m) by ring,
      Nat.mul_div_cancel_left _ (by norm_num)]
  unfold avgLatWindow
  rw [e, e, e, Nat.mul_div_cancel_left _ (by norm_num : 0 < 3),
    Nat.mul_div_cancel_left _ (by norm_num : 0 < 3),
    Nat.mul_div_cancel_left _ (by norm_num : 0 < 3)]
  ring

/-- One window check is invariant under uniform positive scaling when every
latency in the window is a multiple of 3. -/
theorem stable3_scale (off : ℚ) (a b cc : ℤ) (x y z : Nat) (c : Nat)
    (hc : 0 < c) (hx : 3 ∣ x) (hy : 3 ∣ y) (hz : 3 ∣ z) :
    stable3 off ((c : ℤ) * a) ((c : ℤ) * b) ((c : ℤ) * cc)
        (c * x) (c * y) (c * z) = stable3 off a b cc x y z := by
  unfold stable3
  rw [avgIpsWindow_scale a b cc c, avgLatWindow_scale x y z c hx hy hz,
    ipsOk_scale off (avgIpsWindow a b cc) a c hc,
    ipsOk_scale off (avgIpsWindow a b cc) b c hc,
    ipsOk_scale off (avgIpsWindow a b cc) cc c hc,
    latOk_scale off (avgLatWindow x y z) x c hc,
    latOk_scale off (avgLatWindow x y z) y c hc,
    latOk_scale off (avgLatWindow x y z) z c hc]

/-- The window scan is invariant under uniform positive scaling when every
latency sample is a multiple of 3. -/
theorem stabilityWindows_scale (off : ℚ) (c : Nat) (hc : 0 < c) :
    ∀ (ips : List ℤ) (lats : List Nat), (∀ l ∈ lats, 3 ∣ l) →
      stabilityWindows off (ips.map fun v => (c : ℤ) * v)
          (lats.map fun l => c * l) =
        stabilityWindows off ips lats := by
  intro ips
  induction ips with
  | nil => intro lats _; rfl
  | cons a ips ih =>
    intro lats hdvd
    cases ips with
    | nil => rfl
    | cons b ips2 =>
      cases ips2 with
      | nil => rfl
      | cons cc ips3 =>
        cases lats with
        | nil => rfl
        | cons x lats2 =>
          cases lats2 with
          | nil => rfl
          | cons y lats3 =>
            cases lats3 with
            | nil => rfl
            | cons z lats4 =>
              have hx := hdvd x (by simp)
              have hy := hdvd y (by simp)
              have hz := hdvd z (by simp)
              have hrest : ∀ l ∈ y :: z :: lats4, 3 ∣ l := by
                intro l hl
                rcases List.mem_cons.mp hl with rfl | hl
                · exact hy
                · rcases List.mem_cons.mp hl with rfl | hl
                  · exact hz
                  · exact hdvd l (by simp [hl])
              have ih' := ih (y :: z :: lats4) hrest
              simp only [List.map_cons] at ih' ⊢
              simp only [stabilityWindows]
              rw [stable3_scale off a b cc x y z c hc hx hy hz, ih']

/-- C3 counterexample: with the default `stable_offset = 1/10`, the run with
samples `infer_per_sec = [3,3,3]`, `avg_latency_ns = [1,1,1]` is declared
unstable (the truncating running latency mean is `0`, and `1 > 0 * 1.1`),
while the same run scaled by the positive constant 3 — `[9,9,9]` and
`[3,3,3]` — is declared stable.  Uniform positive scaling changes the
stability outcome. -/
theorem c3_counterexample :
    stabilityDeclared (1 / 10) [(3 : ℤ), 3, 3] [(1 : Nat), 1, 1] = false ∧
    stabilityDeclared (1 / 10) [(9 : ℤ), 9, 9] [(3 : Nat), 3, 3] = true ∧
    ([(9 : ℤ), 9, 9] = [(3 : ℤ), 3, 3].map fun v => (3 : ℤ) * v) ∧
    ([(3 : Nat), 3, 3] = [(1 : Nat), 1, 1].map fun l => 3 * l) :=
  ⟨by norm_num [stabilityDeclared, stabilityWindows, stable3, ipsOk, latOk,
      avgIpsWindow, avgLatWindow],
    by norm_num [stabilityDeclared, stabilityWindows, stable3, ipsOk, latOk,
      avgIpsWindow, avgLatWindow],
    by decide, by decide⟩

/-- C3 (amended): the stability decision is invariant under scaling every
`infer_per_sec` sample and every `avg_latency_ns` sample by the same positive
integer constant, provided every latency sample is a multiple of
`recent_k = 3` — so that the truncating uint64 running latency mean
(`avg_latency += latencies.back() / recent_k`) scales exactly.  Without the
divisibility proviso the truncation breaks the invariance. -/
theorem c3_stability_scale_invariance (off : ℚ) (ips : List ℤ)
    (lats : List Nat) (c : Nat) (hc : 0 < c)
    (hdvd : ∀ l ∈ lats, 3 ∣ l) :
    stabilityDeclared off (ips.map fun v => (c : ℤ) * v)
        (lats.map fun l => c * l) =
      stabilityDeclared off ips lats := by
  unfold stabilityDeclared
  rw [List.length_map]
  split
  · rfl
  · exact stabilityWindows_scale off c hc ips lats hdvd

/-- Witness for C3 (amended): a run with all latencies divisible by 3,
scaled by 2, keeps its (stable) outcome. -/
theorem c3_stability_scale_invariance_witness :
    ((0 : Nat) < 2 ∧ (∀ l ∈ [(3 : Nat), 3, 3], 3 ∣ l)) ∧
    stabilityDeclared (1 / 10) ([(9 : ℤ), 9, 9].map fun v => (2 : ℤ) * v)
        ([(3 : Nat), 3, 3].map fun l => 2 * l) =
      stabilityDeclared (1 / 10) [(9 : ℤ), 9, 9] [(3 : Nat), 3, 3] :=
  ⟨⟨by decide, by decide⟩,
    c3_stability_scale_invariance (1 / 10) [(9 : ℤ), 9, 9] [(3 : Nat), 3, 3]
      2 (by decide) (by decide)⟩

end PerfClient

namespace InferServer

/-- `StatDuration` proto: a count and a total time, both uint64 counters.
The counters are modelled as unbounded naturals: wrapping the time totals
would need centuries of accumulated nanoseconds. -/
structure StatDuration where
  count : Nat
  total_time_ns : Nat
deriving DecidableEq

/-- `InferRequestStats` proto: the per-(model, version, batch) duration
stats. -/
structure InferRequestStats where
  success : StatDuration
  failed : StatDuration
  compute : StatDuration
  queue : StatDuration
deriving DecidableEq

/-- `ModelConfig` proto, reduced to an identity: only its presence and
wholesale replacement matter to the functions verified here. -/
structure ModelConfig where
  name : String
deriving DecidableEq

/-- `ModelVersionStatus` proto as held by the server status manager:
execution counters plus the `infer_stats` map keyed by batch size. -/
structure ModelVersionStatusSrv where
  model_inference_count : Nat
  model_execution_count : Nat
  infer_stats : Nat → Option InferRequestStats

/-- `ModelStatus` proto as held by the server status manager. -/
structure ModelStatusSrv where
  config : ModelConfig
  version_status : Int → Option ModelVersionStatusSrv

/-- The `ServerStatus` proto state guarded by `ServerStatusManager::mu_`
(fields not touched by the verified operations are omitted). -/
structure ServerStatusSrv where
  version : String
  model_status : String → Option ModelStatusSrv

/-- The `infer_stats` entry of a server state at `(model, version, batch)`,
`none` when any level of the nesting is absent. -/
def inferStatsAt (s : ServerStatusSrv) (m : String) (v : Int) (b : Nat) :
    Option InferRequestStats :=
  match s.model_status m with
  | none => none
  | some ms =>
    match ms.version_status v with
    | none => none
    | some vs => vs.infer_stats b

/-- The four counters `(success.count, success.total_time_ns,
queue.total_time_ns, compute.total_time_ns)` of an optional entry, absent
counting as zero. -/
def counterQuad (o : Option InferRequestStats) : Nat × Nat × Nat × Nat :=
  match o with
  | none => (0, 0, 0, 0)
  | some st => (st.success.count, st.success.total_time_ns,
      st.queue.total_time_ns, st.compute.total_time_ns)

/-- The fresh stats entry written by `UpdateSuccessInferStats` when the
`(version, batch)` entry does not exist yet: counts 1, the request / compute
durations, and `run_duration_ns - compute_duration_ns` for the queue (the
uint64 subtraction is truncated; the caller's timers guarantee
`compute ≤ run`). -/
def freshSuccessStats (request_duration_ns run_duration_ns
    compute_duration_ns : Nat) : InferRequestStats :=
  { success := ⟨1, request_duration_ns⟩
    failed := ⟨0, 0⟩
    compute := ⟨1, compute_duration_ns⟩
    queue := ⟨1, run_duration_ns - compute_duration_ns⟩ }

/-- The incremented stats entry written by `UpdateSuccessInferStats` when
the `(version, batch)` entry exists. -/
def bumpedSuccessStats (st : InferRequestStats) (request_duration_ns
    run_duration_ns compute_duration_ns : Nat) : InferRequestStats :=
  { success := ⟨st.success.count + 1,
      st.success.total_time_ns + request_duration_ns⟩
    failed := st.failed
    compute := ⟨st.compute.count + 1,
      st.compute.total_time_ns + compute_duration_ns⟩
    queue := ⟨st.queue.count + 1,
      st.queue.total_time_ns + (run_duration_ns - compute_duration_ns)⟩ }

/-- The `ModelVersionStatus` entry created for a previously unseen model
version: `model_inference_count = batch_size`,
`model_execution_count = execution_cnt` and a single `infer_stats` entry. -/
def freshVersionStatus (batch_size execution_cnt request_duration_ns
    run_duration_ns compute_duration_ns : Nat) : ModelVersionStatusSrv where
  model_inference_count := batch_size
  model_execution_count := execution_cnt
  infer_stats := fun b =>
    if b = batch_size then
      some (freshSuccessStats request_duration_ns run_duration_ns
        compute_duration_ns)
    else none

/-- An existing `ModelVersionStatus` with its two counters bumped and the
`infer_stats` entry for `batch_size` replaced by `newEntry`. -/
def bumpedVersionStatus (vs : ModelVersionStatusSrv)
    (batch_size execution_cnt : Nat) (newEntry : InferRequestStats) :
    ModelVersionStatusSrv where
  model_inference_count := vs.model_inference_count + batch_size
  model_execution_count := vs.model_execution_count + execution_cnt
  infer_stats := fun b =>
    if b = batch_size then some newEntry else vs.infer_stats b

/-- Store `vs` as the `model_version` entry of `model_name` (whose current
status is `ms`), leaving every other model and version unchanged. -/
def setVersionStatus (s : ServerStatusSrv) (ms : ModelStatusSrv)
    (model_name : String) (model_version : Int)
    (vs : ModelVersionStatusSrv) : ServerStatusSrv where
  version := s.version
  model_status := fun n =>
    if n = model_name then
      some { ms with version_status := fun v =>
        if v = model_version then some vs else ms.version_status v }
    else s.model_status n

/-- `ServerStatusManager::UpdateSuccessInferStats`
(server_status.cc lines 242-308): no-op (with an error log) when the model
is untracked or `batch_size == 0`; otherwise creates or increments the
`(model_version, batch_size)` stats entry and bumps the version's inference
and execution counters. -/
def updateSuccessInferStats (s : ServerStatusSrv) (model_name : String)
    (model_version : Int) (batch_size execution_cnt : Nat)
    (request_duration_ns run_duration_ns compute_duration_ns : Nat) :
    ServerStatusSrv :=
  match s.model_status model_name with
  | none => s
  | some ms =>
    if batch_size = 0 then s
    else
      match ms.version_status model_version with
      | none =>
        setVersionStatus s ms model_name model_version
          (freshVersionStatus batch_size execution_cnt request_duration_ns
            run_duration_ns compute_duration_ns)
      | some vs =>
        match vs.infer_stats batch_size with
        | none =>
          setVersionStatus s ms model_name model_version
            (bumpedVersionStatus vs batch_size execution_cnt
              (freshSuccessStats request_duration_ns run_duration_ns
                compute_duration_ns))
        | some st =>
          setVersionStatus s ms model_name model_version
            (bumpedVersionStatus vs batch_size execution_cnt
              (bumpedSuccessStats st request_duration_ns run_duration_ns
                compute_duration_ns))

/-- Field-wise order on the four counters. -/
def quadLe (p q : Nat × Nat × Nat × Nat) : Prop :=
  p.1 ≤ q.1 ∧ p.2.1 ≤ q.2.1 ∧ p.2.2.1 ≤ q.2.2.1 ∧ p.2.2.2 ≤ q.2.2.2

/-- Where `setVersionStatus` looks up: the stored version map is consulted
at the updated model, the old state elsewhere. -/
theorem inferStatsAt_setVersionStatus (s : ServerStatusSrv)
    (ms : ModelStatusSrv) (mn : String) (mv : Int)
    (vs : ModelVersionStatusSrv) (m : String) (v : Int) (b : Nat) :
    inferStatsAt (setVersionStatus s ms mn mv vs) m v b =
      if m = mn then
        (if v = mv then vs.infer_stats b else
          match ms.version_status v with
          | none => none
          | some vv => vv.infer_stats b)
      else inferStatsAt s m v b := by
  unfold inferStatsAt setVersionStatus
  by_cases hm : m = mn
  · subst hm
    by_cases hv : v = mv
    · subst hv
      simp
    · simp [hv]
  · simp [hm]

/-- `quadLe` is reflexive. -/
theorem quadLe_refl (p : Nat × Nat × Nat × Nat) : quadLe p p :=
  ⟨le_rfl, le_rfl, le_rfl, le_rfl⟩

/-- An absent entry is below anything. -/
theorem quadLe_none (o : Option InferRequestStats) :
    quadLe (counterQuad none) (counterQuad o) :=
  ⟨Nat.zero_le _, Nat.zero_le _, Nat.zero_le _, Nat.zero_le _⟩

/-- Looking up the pre-state through its stored model status. -/
theorem inferStatsAt_of_model (s : ServerStatusSrv) (ms : ModelStatusSrv)
    (mn : String) (v : Int) (b : Nat) (hms : s.model_status mn = some ms) :
    inferStatsAt s mn v b =
      match ms.version_status v with
      | none => none
      | some vv => vv.infer_stats b := by
  unfold inferStatsAt
  rw [hms]

/-- A successful-inference update leaves the four counters of every
`(model, version, batch_size)` entry non-decreasing (absent entries count
as zero). -/
theorem updateSuccessInferStats_monotone (s : ServerStatusSrv)
    (mn : String) (mv : Int) (bsz ec rd run cd : Nat)
    (m : String) (v : Int) (b : Nat) :
    quadLe (counterQuad (inferStatsAt s m v b))
      (counterQuad (inferStatsAt
        (updateSuccessInferStats s mn mv bsz ec rd run cd) m v b)) := by
  unfold updateSuccessInferStats
  cases hms : s.model_status mn with
  | none => exact quadLe_refl _
  | some ms =>
    by_cases hbz : bsz = 0
    · simp only [hbz, if_pos rfl]
      exact quadLe_refl _
    · simp only [if_neg hbz]
      have hframe : ∀ vstat,
          ¬(m = mn ∧ v = mv) →
          inferStatsAt (setVersionStatus s ms mn mv vstat) m v b =
            inferStatsAt s m v b := by
        intro vstat hnot
        rw [inferStatsAt_setVersionStatus]
        by_cases hm : m = mn
        · subst hm
          have hv : ¬v = mv := fun hv => hnot ⟨rfl, hv⟩
          rw [if_pos rfl, if_neg hv, ← inferStatsAt_of_model s ms m v b hms]
        · rw [if_neg hm]
      by_cases hmv : m = mn ∧ v = mv
      · obtain ⟨rfl, rfl⟩ := hmv
        have hbase := inferStatsAt_of_model s ms m v b hms
        cases hvs : ms.version_status v with
        | none =>
          dsimp only
          rw [inferStatsAt_setVersionStatus, if_pos rfl, if_pos rfl]
          have : inferStatsAt s m v b = none := by rw [hbase, hvs]
          rw [this]
          exact quadLe_none _
        | some vs =>
          dsimp only
          have hbefore : inferStatsAt s m v b = vs.infer_stats b := by
            rw [hbase, hvs]
          cases hst : vs.infer_stats bsz with
          | none =>
            dsimp only
            rw [inferStatsAt_setVersionStatus, if_pos rfl, if_pos rfl,
              hbefore]
            unfold bumpedVersionStatus
            by_cases hb : b = bsz
            · subst hb
              dsimp only
              rw [hst, if_pos rfl]
              exact quadLe_none _
            · simp only [if_neg hb]
              exact quadLe_refl _
          | some st =>
            dsimp only
            rw [inferStatsAt_setVersionStatus, if_pos rfl, if_pos rfl,
              hbefore]
            unfold bumpedVersionStatus
            by_cases hb : b = bsz
            · subst hb
              dsimp only
              rw [hst, if_pos rfl]
              unfold counterQuad bumpedSuccessStats quadLe
              exact ⟨Nat.le_add_right _ _, Nat.le_add_right _ _,
                Nat.le_add_right _ _, Nat.le_add_right _ _⟩
            · simp only [if_neg hb]
              exact quadLe_refl _
      · cases hvs : ms.version_status mv with
        | none =>
          dsimp only
          rw [hframe _ hmv]
          exact quadLe_refl _
        | some vs =>
          dsimp only
          cases hst : vs.infer_stats bsz with
          | none =>
            dsimp only
            rw [hframe _ hmv]
            exact quadLe_refl _
          | some st =>
            dsimp only
            rw [hframe _ hmv]
            exact quadLe_refl _

/-- `ServerStatusManager::InitForModel` (server_status.cc lines 94-114):
whether the model is new or re-added, the stored entry ends up cleared with
only the fresh config (`ms[model_name].Clear()` followed by
`mutable_config()->CopyFrom(model_config)`; for a new model the map entry is
default-constructed) — the two source branches differ only in the log line.
The `GetModelConfig` lookup is external; the embedding takes the fetched
config as an argument (the function returns early on lookup failure without
touching the map). -/
def initForModel (s : ServerStatusSrv) (model_name : String)
    (cfg : ModelConfig) : ServerStatusSrv :=
  { s with model_status := fun n =>
      if n = model_name then
        some { config := cfg, version_status := fun _ => none }
      else s.model_status n }

/-- C10: `InitForModel(model_name)` leaves the status entry of every other
model unchanged, and stores for `model_name` a cleared status holding only
the fresh config — in particular every `(version, batch)` counter entry of a
re-added model restarts from the absent (all-zero) state. -/
theorem c10_initForModel_frame (s : ServerStatusSrv) (name : String)
    (cfg : ModelConfig) :
    (∀ n, n ≠ name →
      (initForModel s name cfg).model_status n = s.model_status n) ∧
    (initForModel s name cfg).model_status name =
      some { config := cfg, version_status := fun _ => none } ∧
    (∀ v b, inferStatsAt (initForModel s name cfg) name v b = none) := by
  refine ⟨?_, ?_, ?_⟩
  · intro n hn
    unfold initForModel
    simp [hn]
  · unfold initForModel
    simp
  · intro v b
    unfold inferStatsAt initForModel
    simp

/-- A sample tracked model used by concrete witnesses. -/
def sampleVersionStatus : ModelVersionStatusSrv where
  model_inference_count := 8
  model_execution_count := 2
  infer_stats := fun b => if b = 4 then some (freshSuccessStats 10 9 7) else none

/-- A sample server state tracking one model with one version. -/
def sampleSrvState : ServerStatusSrv where
  version := "1.0"
  model_status := fun n =>
    if n = "resnet" then
      some { config := ⟨"resnet"⟩
             version_status := fun v =>
               if v = 1 then some sampleVersionStatus else none }
    else none

/-- Witness for C10: at the sample state, re-adding "resnet" with a fresh
config preserves "other" and clears the accumulated entry. -/
theorem c10_initForModel_frame_witness :
    (("other" : String) ≠ "resnet") ∧
    (initForModel sampleSrvState "resnet" ⟨"resnet2"⟩).model_status "other" =
      sampleSrvState.model_status "other" ∧
    (initForModel sampleSrvState "resnet" ⟨"resnet2"⟩).model_status "resnet" =
      some { config := ⟨"resnet2"⟩, version_status := fun _ => none } ∧
    inferStatsAt (initForModel sampleSrvState "resnet" ⟨"resnet2"⟩)
      "resnet" 1 4 = none :=
  ⟨by decide,
    (c10_initForModel_frame sampleSrvState "resnet" ⟨"resnet2"⟩).1 "other"
      (by decide),
    (c10_initForModel_frame sampleSrvState "resnet" ⟨"resnet2"⟩).2.1,
    (c10_initForModel_frame sampleSrvState "resnet" ⟨"resnet2"⟩).2.2 1 4⟩

end InferServer

namespace PerfClient

/-- `nic` alias for the proto stats shared with the server side. -/
abbrev InferRequestStats := InferServer.InferRequestStats

/-- The `ModelVersionStatus` proto as received by the perf client: the
`infer_stats` map keyed by batch size, as an association list (protobuf map
entries with distinct keys). -/
structure ModelVersionStatusPB where
  infer_stats : List (Nat × InferRequestStats)
deriving DecidableEq

/-- The `ModelStatus` proto snapshot received from the status endpoint by
the perf client: the `version_status` map keyed by int64 version. -/
structure ModelStatusPB where
  version_status : List (Int × ModelVersionStatusPB)
deriving DecidableEq

/-- uint64 subtraction `a - b` (for `a, b < 2^64`): wraps modulo `2^64`
instead of going negative. -/
def sub64 (a b : Nat) : Nat := (2 ^ 64 + a - b) % 2 ^ 64

/-- The version the server half of `Summarize` looks up: for a negative
requested `model_version_` ("latest"), `status_model_version` starts at 0
and takes the maximum over the keys of `end_status.version_status()`;
otherwise the requested version itself. -/
def resolveVersion (modelVersion : Int) (endS : ModelStatusPB) : Int :=
  if modelVersion < 0 then
    endS.version_status.foldl (fun acc vp => max acc vp.1) 0
  else modelVersion

/-- The four server deltas written into the summary. -/
structure ServerDeltas where
  request_count : Nat
  cumm_time_ns : Nat
  queue_time_ns : Nat
  compute_time_ns : Nat
deriving DecidableEq

/-- The start-side counters the composer subtracts: the entry of
`start_status` at the resolved version and batch size, all-zero when the
version or the batch entry is absent. -/
def startCounters (startS : ModelStatusPB) (v : Int) (bs : Nat) :
    Nat × Nat × Nat × Nat :=
  match startS.version_status.lookup v with
  | none => (0, 0, 0, 0)
  | some vstart =>
    match vstart.infer_stats.lookup bs with
    | none => (0, 0, 0, 0)
    | some st => (st.success.count, st.success.total_time_ns,
        st.queue.total_time_ns, st.compute.total_time_ns)

/-- The server half of `ConcurrencyManager::Summarize`
(perf_client.cc lines 610-659): resolve the version against `end_status`,
fail when `end_status` lacks the version entry or its batch entry, treat an
absent start entry as zeros, and emit the four uint64 counter differences
(unchecked subtraction, modelled by `sub64`). -/
def summarizeServer (modelVersion : Int) (bs : Nat)
    (startS endS : ModelStatusPB) : Except String ServerDeltas :=
  match endS.version_status.lookup (resolveVersion modelVersion endS) with
  | none => .error "missing model version status"
  | some vend =>
    match vend.infer_stats.lookup bs with
    | none => .error "missing inference stats"
    | some endStats =>
      .ok { request_count :=
              sub64 endStats.success.count
                (startCounters startS (resolveVersion modelVersion endS) bs).1
            cumm_time_ns :=
              sub64 endStats.success.total_time_ns
                (startCounters startS (resolveVersion modelVersion endS) bs).2.1
            queue_time_ns :=
              sub64 endStats.queue.total_time_ns
                (startCounters startS
                  (resolveVersion modelVersion endS) bs).2.2.1
            compute_time_ns :=
              sub64 endStats.compute.total_time_ns
                (startCounters startS
                  (resolveVersion modelVersion endS) bs).2.2.2 }

/-- When the subtraction does not underflow and the minuend fits in 64 bits,
`sub64` is the genuine difference. -/
theorem sub64_exact (a b : Nat) (hle : b ≤ a) (ha : a < 2 ^ 64) :
    sub64 a b = a - b := by
  unfold sub64
  omega

/-- A start/end stats pair for the C4 counterexample: the end snapshot's
counters are all below the start snapshot's (as after a server restart). -/
def c4restartStart : ModelStatusPB :=
  ⟨[(1, ⟨[(1, ⟨⟨5, 500⟩, ⟨0, 0⟩, ⟨5, 200⟩, ⟨5, 100⟩⟩)]⟩)]⟩

/-- The end snapshot with smaller counters than `c4restartStart`. -/
def c4restartEnd : ModelStatusPB :=
  ⟨[(1, ⟨[(1, ⟨⟨3, 400⟩, ⟨0, 0⟩, ⟨3, 150⟩, ⟨3, 90⟩⟩)]⟩)]⟩

/-- C4 counterexample: with end counters below start counters (here the end
request count 3 is below the start count 5), the composer does not report a
hard error — it returns success, and the unchecked uint64 subtractions wrap
to huge values (`2^64 - 2` and friends) that stand for the would-be negative
deltas. -/
theorem c4_counterexample :
    (3 : Nat) < 5 ∧
    summarizeServer 1 1 c4restartStart c4restartEnd = .ok
      ⟨18446744073709551614, 18446744073709551516,
        18446744073709551606, 18446744073709551566⟩ :=
  ⟨by decide, by rfl⟩

/-- C4 (amended): every successful-inference update leaves the four server
counters of every `(model, version, batch_size)` entry non-decreasing —
hence end ≥ start field-wise across successive snapshots of one server run —
and whenever end ≥ start field-wise (with the end counters in 64-bit range)
the composer's unchecked uint64 subtractions emit exactly the non-negative
true differences.  When end < start (server restart) the composer does not
report an error: the subtraction silently wraps modulo `2^64`. -/
theorem c4_counters_monotone_and_deltas :
    (∀ (s : InferServer.ServerStatusSrv) (mn : String) (mv : Int)
        (bsz ec rd run cd : Nat) (m : String) (v : Int) (b : Nat),
      InferServer.quadLe
        (InferServer.counterQuad (InferServer.inferStatsAt s m v b))
        (InferServer.counterQuad (InferServer.inferStatsAt
          (InferServer.updateSuccessInferStats s mn mv bsz ec rd run cd)
          m v b))) ∧
    (∀ (mv : Int) (bs : Nat) (startS endS : ModelStatusPB)
        (vend : ModelVersionStatusPB) (st : InferRequestStats),
      endS.version_status.lookup (resolveVersion mv endS) = some vend →
      vend.infer_stats.lookup bs = some st →
      (startCounters startS (resolveVersion mv endS) bs).1 ≤
          st.success.count ∧
        (startCounters startS (resolveVersion mv endS) bs).2.1 ≤
          st.success.total_time_ns ∧
        (startCounters startS (resolveVersion mv endS) bs).2.2.1 ≤
          st.queue.total_time_ns ∧
        (startCounters startS (resolveVersion mv endS) bs).2.2.2 ≤
          st.compute.total_time_ns →
      st.success.count < 2 ^ 64 ∧ st.success.total_time_ns < 2 ^ 64 ∧
        st.queue.total_time_ns < 2 ^ 64 ∧ st.compute.total_time_ns < 2 ^ 64 →
      summarizeServer mv bs startS endS = .ok
        { request_count := st.success.count -
            (startCounters startS (resolveVersion mv endS) bs).1
          cumm_time_ns := st.success.total_time_ns -
            (startCounters startS (resolveVersion mv endS) bs).2.1
          queue_time_ns := st.queue.total_time_ns -
            (startCounters startS (resolveVersion mv endS) bs).2.2.1
          compute_time_ns := st.compute.total_time_ns -
            (startCounters startS (resolveVersion mv endS) bs).2.2.2 }) := by
  constructor
  · intro s mn mv bsz ec rd run cd m v b
    exact InferServer.updateSuccessInferStats_monotone s mn mv bsz ec rd run
      cd m v b
  · intro mv bs startS endS vend st hvend hst hle hbound
    unfold summarizeServer
    simp only [hvend, hst]
    rw [sub64_exact _ _ hle.1 hbound.1,
      sub64_exact _ _ hle.2.1 hbound.2.1,
      sub64_exact _ _ hle.2.2.1 hbound.2.2.1,
      sub64_exact _ _ hle.2.2.2 hbound.2.2.2]

/-- Concrete snapshots for the C4 witness: end ≥ start field-wise. -/
def c4wStart : ModelStatusPB :=
  ⟨[(1, ⟨[(1, ⟨⟨4, 40⟩, ⟨0, 0⟩, ⟨4, 10⟩, ⟨4, 20⟩⟩)]⟩)]⟩

/-- The later snapshot of the C4 witness. -/
def c4wEnd : ModelStatusPB :=
  ⟨[(1, ⟨[(1, ⟨⟨5, 100⟩, ⟨0, 0⟩, ⟨5, 30⟩, ⟨5, 60⟩⟩)]⟩)]⟩

/-- Witness for C4 (amended): monotone update at the sample server state,
and exact non-negative deltas at monotone concrete snapshots. -/
theorem c4_counters_monotone_and_deltas_witness :
    (c4wEnd.version_status.lookup (resolveVersion 1 c4wEnd) =
        some ⟨[(1, ⟨⟨5, 100⟩, ⟨0, 0⟩, ⟨5, 30⟩, ⟨5, 60⟩⟩)]⟩ ∧
      (startCounters c4wStart (resolveVersion 1 c4wEnd) 1).1 ≤ 5) ∧
    InferServer.quadLe
      (InferServer.counterQuad
        (InferServer.inferStatsAt InferServer.sampleSrvState "resnet" 1 4))
      (InferServer.counterQuad (InferServer.inferStatsAt
        (InferServer.updateSuccessInferStats InferServer.sampleSrvState
          "resnet" 1 4 1 10 9 7) "resnet" 1 4)) ∧
    summarizeServer 1 1 c4wStart c4wEnd = .ok ⟨1, 60, 40, 20⟩ :=
  ⟨⟨by rfl, by decide⟩,
    c4_counters_monotone_and_deltas.1 InferServer.sampleSrvState "resnet" 1 4
      1 10 9 7 "resnet" 1 4,
    c4_counters_monotone_and_deltas.2 1 1 c4wStart c4wEnd
      ⟨[(1, ⟨⟨5, 100⟩, ⟨0, 0⟩, ⟨5, 30⟩, ⟨5, 60⟩⟩)]⟩
      ⟨⟨5, 100⟩, ⟨0, 0⟩, ⟨5, 30⟩, ⟨5, 60⟩⟩ (by rfl) (by rfl)
      (by refine ⟨?_, ?_, ?_, ?_⟩ <;> decide)
      (by refine ⟨?_, ?_, ?_, ?_⟩ <;> decide)⟩

/-- The version-resolution fold `max` over the key column, from any
accumulator: the result dominates the accumulator and every key, and is the
accumulator or one of the keys. -/
theorem maxVersion_fold_go (l : List (Int × ModelVersionStatusPB)) :
    ∀ a : Int,
      (a ≤ l.foldl (fun acc vp => max acc vp.1) a ∧
        (∀ vp ∈ l, vp.1 ≤ l.foldl (fun acc vp => max acc vp.1) a) ∧
        (l.foldl (fun acc vp => max acc vp.1) a = a ∨
          ∃ vp ∈ l, l.foldl (fun acc vp => max acc vp.1) a = vp.1)) := by
  induction l with
  | nil => intro a; simp
  | cons p l ih =>
    intro a
    obtain ⟨h1, h2, h3⟩ := ih (max a p.1)
    refine ⟨?_, ?_, ?_⟩
    · rw [List.foldl_cons]
      exact le_trans (le_max_left a p.1) h1
    · intro vp hvp
      rw [List.foldl_cons]
      rcases List.mem_cons.mp hvp with rfl | hvp'
      · exact le_trans (le_max_right a vp.1) h1
      · exact h2 vp hvp'
    · rw [List.foldl_cons]
      rcases h3 with h3 | h3
      · rcases max_choice a p.1 with hc | hc
        · exact Or.inl (h3.trans hc)
        · exact Or.inr ⟨p, List.mem_cons_self p l, h3.trans hc⟩
      · obtain ⟨vp, hvp, he⟩ := h3
        exact Or.inr ⟨vp, List.mem_cons_of_mem p hvp, he⟩

/-- C6 counterexample: requested version -1 against an end snapshot with no
versions resolves to 0 and the composer fails — even though the start
snapshot does have a version entry matching the resolved version.  "Fails
iff neither end_status nor start_status has a matching version entry" is
therefore wrong: only `end_status` is consulted. -/
theorem c6_counterexample :
    summarizeServer (-1) 1 (⟨[(0, ⟨[(1, ⟨⟨1, 10⟩, ⟨0, 0⟩, ⟨1, 7⟩, ⟨1, 2⟩⟩)]⟩)]⟩ :
        ModelStatusPB) ⟨[]⟩ =
      .error "missing model version status" ∧
    (⟨[(0, ⟨[(1, ⟨⟨1, 10⟩, ⟨0, 0⟩, ⟨1, 7⟩, ⟨1, 2⟩⟩)]⟩)]⟩ :
        ModelStatusPB).version_status.lookup
      (resolveVersion (-1) ⟨[]⟩) =
      some ⟨[(1, ⟨⟨1, 10⟩, ⟨0, 0⟩, ⟨1, 7⟩, ⟨1, 2⟩⟩)]⟩ :=
  ⟨by rfl, by rfl⟩

/-- C6 (amended): a negative requested version resolves to the maximum of 0
and the version keys of `end_status` (0 when `end_status` is empty); the
step fails iff `end_status` lacks a version entry for the resolved version
or that entry lacks an `infer_stats` entry for the batch size — the start
snapshot is never consulted for this decision; an absent start entry (at
either level) contributes all-zero start counters rather than an error. -/
theorem c6_version_resolution (mv : Int) (bs : Nat)
    (startS endS : ModelStatusPB) :
    (mv < 0 →
      0 ≤ resolveVersion mv endS ∧
        (∀ vp ∈ endS.version_status, vp.1 ≤ resolveVersion mv endS) ∧
        (resolveVersion mv endS = 0 ∨
          ∃ vp ∈ endS.version_status, resolveVersion mv endS = vp.1)) ∧
    ((∃ d, summarizeServer mv bs startS endS = Except.ok d) ↔
      ∃ vend, endS.version_status.lookup (resolveVersion mv endS) =
          some vend ∧ ∃ st, vend.infer_stats.lookup bs = some st) ∧
    (∀ vend st,
      endS.version_status.lookup (resolveVersion mv endS) = some vend →
      vend.infer_stats.lookup bs = some st →
      startS.version_status.lookup (resolveVersion mv endS) = none →
      summarizeServer mv bs startS endS = Except.ok
        { request_count := sub64 st.success.count 0
          cumm_time_ns := sub64 st.success.total_time_ns 0
          queue_time_ns := sub64 st.queue.total_time_ns 0
          compute_time_ns := sub64 st.compute.total_time_ns 0 }) := by
  refine ⟨?_, ?_, ?_⟩
  · intro hneg
    obtain ⟨h1, h2, h3⟩ := maxVersion_fold_go endS.version_status 0
    unfold resolveVersion
    rw [if_pos hneg]
    exact ⟨h1, h2, h3⟩
  · cases hv : endS.version_status.lookup (resolveVersion mv endS) with
    | none =>
      unfold summarizeServer
      simp [hv]
    | some vend =>
      cases hb : vend.infer_stats.lookup bs with
      | none =>
        unfold summarizeServer
        simp [hv, hb]
      | some st =>
        unfold summarizeServer
        simp [hv, hb]
  · intro vend st hv hb hs
    unfold summarizeServer
    simp [hv, hb, startCounters, hs]

/-- An end snapshot with versions 2 and 5 for the C6 witness. -/
def c6wEnd : ModelStatusPB :=
  ⟨[(2, ⟨[]⟩), (5, ⟨[(3, ⟨⟨6, 66⟩, ⟨0, 0⟩, ⟨6, 22⟩, ⟨6, 44⟩⟩)]⟩)]⟩

/-- Witness for C6 (amended): version -1 against `c6wEnd` resolves to 5, the
step succeeds, and the empty start snapshot contributes zero counters. -/
theorem c6_version_resolution_witness :
    ((-1 : Int) < 0 ∧
      (0 ≤ resolveVersion (-1) c6wEnd ∧
        (∀ vp ∈ c6wEnd.version_status, vp.1 ≤ resolveVersion (-1) c6wEnd) ∧
        (resolveVersion (-1) c6wEnd = 0 ∨
          ∃ vp ∈ c6wEnd.version_status, resolveVersion (-1) c6wEnd = vp.1))) ∧
    summarizeServer (-1) 3 ⟨[]⟩ c6wEnd = Except.ok
      { request_count := sub64 6 0
        cumm_time_ns := sub64 66 0
        queue_time_ns := sub64 44 0
        compute_time_ns := sub64 22 0 } :=
  ⟨⟨by decide,
    (c6_version_resolution (-1) 3 ⟨[]⟩ c6wEnd).1 (by decide)⟩,
    (c6_version_resolution (-1) 3 ⟨[]⟩ c6wEnd).2.2
      ⟨[(3, ⟨⟨6, 66⟩, ⟨0, 0⟩, ⟨6, 22⟩, ⟨6, 44⟩⟩)]⟩
      ⟨⟨6, 66⟩, ⟨0, 0⟩, ⟨6, 22⟩, ⟨6, 44⟩⟩ (by rfl) (by rfl) (by rfl)⟩

/-- Division as the C++ source performs it — unguarded.  Dividing by zero is
undefined behaviour in C++; the embedding returns `none` exactly when a
divisor is zero, so definedness of the `Option` is the divide-by-zero-freedom
of the source expression. -/
def guardedDiv (a b : Nat) : Option Nat :=
  if b = 0 then none else some (a / b)

/-- The server block of `Report` (perf_client.cc lines 1053-1062):
`cumm_avg_us = (server_cumm_time_ns / 1000) / cnt` and the queue/compute
analogues, with `cnt = summary.server_request_count` and no zero guard. -/
def reportServerAvgs (s : PerfStatus) : Option (Nat × Nat × Nat) :=
  match guardedDiv (s.server_cumm_time_ns / 1000) s.server_request_count,
      guardedDiv (s.server_queue_time_ns / 1000) s.server_request_count,
      guardedDiv (s.server_compute_time_ns / 1000) s.server_request_count with
  | some a, some b, some c => some (a, b, c)
  | _, _, _ => none

/-- The per-row CSV computation of `main` (perf_client.cc lines 1390-1404):
`avg_queue_ns = server_queue_time_ns / server_request_count` and the compute
analogue, again with no zero guard. -/
def csvServerAvgs (s : PerfStatus) : Option (Nat × Nat) :=
  match guardedDiv s.server_queue_time_ns s.server_request_count,
      guardedDiv s.server_compute_time_ns s.server_request_count with
  | some a, some b => some (a, b)
  | _, _ => none

/-- `Summarize` stores the four server deltas into the summary the callers
later hand to `Report` and the CSV writer. -/
def applyServerDeltas (s : PerfStatus) (d : ServerDeltas) : PerfStatus :=
  { s with server_request_count := d.request_count
           server_cumm_time_ns := d.cumm_time_ns
           server_queue_time_ns := d.queue_time_ns
           server_compute_time_ns := d.compute_time_ns }

/-- C9: `Report` and the CSV writer divide by `server_request_count` with no
zero guard, so they are division-by-zero free exactly when
`server_request_count > 0`; and no caller establishes that — identical start
and end server snapshots (a server that recorded no matching successful
request during the sleep) make `Summarize` succeed with a zero
`server_request_count`, on which both computations divide by zero. -/
theorem c9_unguarded_server_divisions :
    (∀ s : PerfStatus,
      (reportServerAvgs s).isSome ↔ 0 < s.server_request_count) ∧
    (∀ s : PerfStatus,
      (csvServerAvgs s).isSome ↔ 0 < s.server_request_count) ∧
    summarizeServer 1 1 c4wEnd c4wEnd = .ok ⟨0, 0, 0, 0⟩ ∧
    reportServerAvgs (applyServerDeltas sampleStatus ⟨0, 0, 0, 0⟩) = none ∧
    csvServerAvgs (applyServerDeltas sampleStatus ⟨0, 0, 0, 0⟩) = none := by
  refine ⟨?_, ?_, by rfl, by rfl, by rfl⟩
  · intro s
    unfold reportServerAvgs guardedDiv
    by_cases h : s.server_request_count = 0
    · simp [h]
    · simp [h, Nat.pos_of_ne_zero h]
  · intro s
    unfold csvServerAvgs guardedDiv
    by_cases h : s.server_request_count = 0
    · simp [h]
    · simp [h, Nat.pos_of_ne_zero h]

/-- The concurrency-relevant state of the manager: how many worker threads
exist and the current `pause_index_` (workers with index ≥ pause_index
park). -/
structure MgrState where
  numThreads : Nat
  pauseIndex : Nat
deriving DecidableEq

/-- The concurrency adjustment of `ConcurrencyManager::Step`
(perf_client.cc lines 256-300): set `*pause_index_ = k` under the wake lock
and signal; in synchronous mode spawn workers while
`concurrent_request_count > threads_.size()` (never destroying any); in
asynchronous mode spawn the single worker if none exists yet. -/
def stepAdjust (asyncMode : Bool) (s : MgrState) (k : Nat) : MgrState where
  pauseIndex := k
  numThreads :=
    if asyncMode then (if s.numThreads = 0 then 1 else s.numThreads)
    else max s.numThreads k

/-- The fill loop of `ConcurrencyManager::AsyncInfer`
(perf_client.cc lines 884-892): `while (requests_start_time.size() <
*pause_index)` submit one more async request. -/
def asyncFill (inflight k : Nat) : Nat :=
  if inflight < k then asyncFill (inflight + 1) k else inflight
termination_by k - inflight

/-- The fill loop reaches exactly `k` in-flight requests whenever it starts
at or below `k`. -/
theorem asyncFill_eq (k : Nat) :
    ∀ d inflight, inflight ≤ k → k - inflight = d → asyncFill inflight k = k := by
  intro d
  induction d with
  | zero =>
    intro inflight h hd
    rw [asyncFill, if_neg (by omega : ¬inflight < k)]
    omega
  | succ d ih =>
    intro inflight h hd
    by_cases hlt : inflight < k
    · rw [asyncFill, if_pos hlt]
      exact ih (inflight + 1) hlt (by omega)
    · rw [asyncFill, if_neg hlt]
      omega

/-- The active workers after `step(k)`: indices below `numThreads` that are
below `pauseIndex`. -/
theorem range_filter_lt (n k : Nat) :
    (Finset.range n).filter (fun i => i < k) = Finset.range (min n k) := by
  ext i
  simp only [Finset.mem_filter, Finset.mem_range, lt_min_iff]

/-- C8: after the adjustment of `step(k)`, `pause_index = k`; in synchronous
mode the number of workers with index < pause_index is exactly `k`; the
worker count never decreases; and in asynchronous mode the single worker's
fill loop holds exactly `k` requests in flight (from any steady in-flight
level ≤ k). -/
theorem c8_step_concurrency (asyncMode : Bool) (s : MgrState) (k : Nat)
    (inflight : Nat) :
    (stepAdjust asyncMode s k).pauseIndex = k ∧
    (asyncMode = false →
      ((Finset.range (stepAdjust asyncMode s k).numThreads).filter
        (fun i => i < (stepAdjust asyncMode s k).pauseIndex)).card = k) ∧
    s.numThreads ≤ (stepAdjust asyncMode s k).numThreads ∧
    (inflight ≤ k → asyncFill inflight k = k) := by
  refine ⟨rfl, ?_, ?_, ?_⟩
  · intro ha
    subst ha
    have hnum : (stepAdjust false s k).numThreads = max s.numThreads k := by
      simp [stepAdjust]
    have hp : (stepAdjust false s k).pauseIndex = k := rfl
    rw [hp, hnum, range_filter_lt, Finset.card_range]
    omega
  · by_cases ha : asyncMode = true
    · subst ha
      have hnum : (stepAdjust true s k).numThreads =
          if s.numThreads = 0 then 1 else s.numThreads := by
        simp [stepAdjust]
      rw [hnum]
      split <;> omega
    · have hfa : asyncMode = false := by
        revert ha
        cases asyncMode <;> simp
      subst hfa
      have hnum : (stepAdjust false s k).numThreads = max s.numThreads k := by
        simp [stepAdjust]
      rw [hnum]
      omega
  · intro h
    exact asyncFill_eq k (k - inflight) inflight h rfl

/-- Witness for C8: `step(3)` in synchronous mode from two existing workers,
and the async fill loop from one in-flight request. -/
theorem c8_step_concurrency_witness :
    ((false : Bool) = false ∧ (1 : Nat) ≤ 3) ∧
    ((stepAdjust false ⟨2, 2⟩ 3).pauseIndex = 3 ∧
      ((Finset.range (stepAdjust false ⟨2, 2⟩ 3).numThreads).filter
        (fun i => i < (stepAdjust false ⟨2, 2⟩ 3).pauseIndex)).card = 3 ∧
      (2 : Nat) ≤ (stepAdjust false ⟨2, 2⟩ 3).numThreads ∧
      asyncFill 1 3 = 3) :=
  ⟨⟨rfl, by decide⟩,
    (c8_step_concurrency false ⟨2, 2⟩ 3 1).1,
    (c8_step_concurrency false ⟨2, 2⟩ 3 1).2.1 rfl,
    (c8_step_concurrency false ⟨2, 2⟩ 3 1).2.2.1,
    (c8_step_concurrency false ⟨2, 2⟩ 3 1).2.2.2 (by decide)⟩

end PerfClient
